import Mathlib

/-!
# Verification of the TTSPlayer track-player core

Shallow embedding of `src/ttsplayer/audio/player.py` (class `TrackPlayer`),
the playback-position / seeking core of the TTSPlayer repository.

Modelling conventions:
* Python floats (seconds, volumes) are modelled as exact rationals `ℚ`.
* The pygame mixer backend is modelled as an explicit environment:
  `LoadResult` for `mixer.Sound(path)` (the reported length and raw buffer),
  `ActEnv` for the clock value and the success of `mixer.Sound(buffer=...)`
  during `play`/`seek`, and `QueryEnv` for `channel.get_busy()`,
  `channel.get_pos()` and the clock during `is_playing`/`get_current_position`.
* A raw audio buffer is modelled by its byte count (only `len(raw)` and
  slicing arithmetic matter to the player).
* A `pygame.mixer.Sound` handle in the `_sounds` dict is modelled by its
  mutable volume (the only attribute the player writes); `_current_channel`
  and `_active_segment` are modelled by whether they are `None`.
* Python dicts keyed by track id are insertion-ordered association lists,
  Python truthiness (`if not self._current_track`, `if length:`, `if raw`,
  `length or start`) is modelled explicitly.
* `pygame.mixer.Sound.get_length` returns a non-negative duration, so the
  preload environment in the reachability relation is constrained to
  non-negative reported lengths.
-/

namespace TTSPlayer

/-- A track record (`ttsplayer/models/track.py`); only the fields the player
reads during `preload`. -/
structure Track where
  identifier : String
  audio_path : String
deriving DecidableEq

/-- Outcome of `mixer.Sound(path)` during preload: the length reported by
`sound.get_length()` (`none` models the `AttributeError`/`TypeError` path)
and the raw buffer from `sound.get_raw()` (`none` models the
`AttributeError`/`pygame.error` path; `some n` is a buffer of `n` bytes). -/
structure LoadResult where
  length_res : Option ℚ
  raw_res : Option ℕ
deriving DecidableEq

/-- The mutable state of a `TrackPlayer` instance. -/
structure PlayerState where
  /-- `self._sounds`: preloaded ids, each with its sound's volume. -/
  sounds : List (String × ℚ)
  /-- `self._lengths` -/
  lengths : List (String × ℚ)
  /-- `self._raw_audio`, each buffer by its byte count. -/
  raw_audio : List (String × ℕ)
  /-- `self._sample_rate` -/
  sample_rate : Option ℕ
  /-- `self._bytes_per_frame` -/
  bytes_per_frame : Option ℕ
  /-- `self._current_track` -/
  current_track : Option String
  /-- whether `self._current_channel` is not `None` -/
  has_channel : Bool
  /-- whether `self._active_segment` is not `None` -/
  active_segment : Bool
  /-- `self._start_timestamp` -/
  start_timestamp : Option ℚ
  /-- `self._current_offset` -/
  current_offset : ℚ
  /-- `self._last_position` -/
  last_position : ℚ
deriving DecidableEq

/-- `d.get(k)` on an insertion-ordered dict. -/
def lookup {α : Type} (m : List (String × α)) (k : String) : Option α :=
  (m.find? (fun p => p.1 == k)).map Prod.snd

/-- `d[k] = v` on an insertion-ordered dict. -/
def dictInsert {α : Type} (m : List (String × α)) (k : String) (v : α) :
    List (String × α) :=
  if (lookup m k).isSome then m.map (fun p => if p.1 == k then (p.1, v) else p)
  else m ++ [(k, v)]

/-- Python truthiness of `Optional[str]`: `None` and `""` are falsy. -/
def strFalsy : Option String → Bool
  | none => true
  | some s => s == ""

/-- `TrackPlayer.__init__`: `init_info` is what `mixer.get_init()` returns
after `mixer.init()`, a `(frequency, format, channels)` triple or `None`.
`bytes_per_sample = max(1, abs(format) // 8)`;
`bytes_per_frame = bytes_per_sample * max(1, channels)`. -/
def initState (init_info : Option (ℕ × Int × ℕ)) : PlayerState where
  sounds := []
  lengths := []
  raw_audio := []
  sample_rate := init_info.map (fun i => i.1)
  bytes_per_frame := init_info.map (fun i => max 1 (i.2.1.natAbs / 8) * max 1 i.2.2)
  current_track := none
  has_channel := false
  active_segment := false
  start_timestamp := none
  current_offset := 0
  last_position := 0

/-- One iteration of the `preload` loop body for one track; returns the new
state and the number of backend sound loads performed (0 or 1).
`if raw:` keeps the buffer only when it is non-`None` and non-empty.
A fresh pygame sound has volume `1.0`. -/
def preloadOne (env : String → LoadResult) (s : PlayerState) (t : Track) :
    PlayerState × ℕ :=
  if (lookup s.sounds t.identifier).isSome then (s, 0)
  else
    let r := env t.audio_path
    let s1 := { s with sounds := dictInsert s.sounds t.identifier 1 }
    let s2 := { s1 with
      lengths := dictInsert s1.lengths t.identifier (r.length_res.getD 0) }
    let s3 :=
      match r.raw_res with
      | some n =>
          if n ≠ 0 then { s2 with raw_audio := dictInsert s2.raw_audio t.identifier n }
          else s2
      | none => s2
    (s3, 1)

/-- `TrackPlayer.preload(tracks)`; also counts backend sound loads. -/
def preload (s : PlayerState) (tracks : List Track) (env : String → LoadResult) :
    PlayerState × ℕ :=
  match tracks with
  | [] => (s, 0)
  | t :: rest =>
      let r1 := preloadOne env s t
      let r2 := preload r1.1 rest env
      (r2.1, r1.2 + r2.2)

/-- `TrackPlayer.get_track_length(track_id)`. -/
def get_track_length (s : PlayerState) (track_id : String) : Option ℚ :=
  lookup s.lengths track_id

/-- `TrackPlayer.supports_seeking(track_id)`. -/
def supports_seeking (s : PlayerState) (track_id : String) : Bool :=
  (lookup s.raw_audio track_id).isSome && s.sample_rate.isSome &&
    s.bytes_per_frame.isSome

/-- `TrackPlayer._prepare_sound(track_id, start)`, for a `track_id` present in
`self._sounds` (its callers guarantee this; `self._sounds[track_id]` is read
only to obtain the full-track handle).  The result is
`(sound is not None, actual_start, is_partial)`.
`int(start * sample_rate)` is floor here since `start > 0` on that path.
`buffer_ok` is whether `mixer.Sound(buffer=partial)` succeeds; on failure the
code returns the full sound from offset `0.0`.
`length or start` maps a falsy (`None`/`0.0`) length to the clamped start. -/
def prepare_sound (s : PlayerState) (track_id : String) (start : ℚ)
    (buffer_ok : Bool) : Bool × ℚ × Bool :=
  let length := lookup s.lengths track_id
  if start ≤ 0 ∨ supports_seeking s track_id = false then (true, 0, false)
  else
    let rawLen := (lookup s.raw_audio track_id).getD 0
    let rate := s.sample_rate.getD 0
    let bpf := s.bytes_per_frame.getD 0
    if rawLen = 0 ∨ rate = 0 ∨ bpf = 0 then (true, 0, false)
    else
      let start1 :=
        match length with
        | some L => if 0 < L then max 0 (min start L) else start
        | none => start
      let offset_frames : ℕ := Nat.floor (start1 * (rate : ℚ))
      let aligned_offset : ℕ := offset_frames * bpf
      if rawLen ≤ aligned_offset then
        (false,
          (match length with
           | some L => if L = 0 then start1 else L
           | none => start1),
          false)
      else if buffer_ok = true then
        let actual0 : ℚ := (aligned_offset : ℚ) / ((bpf : ℚ) * (rate : ℚ))
        let actual :=
          match length with
          | some L => if 0 < L then min actual0 L else actual0
          | none => actual0
        (true, actual, true)
      else (true, 0, false)

/-- `TrackPlayer.stop()`.  The external `channel.stop()` call does not touch
player state; every session field is cleared. -/
def stop (s : PlayerState) : PlayerState :=
  { s with
    has_channel := false
    current_track := none
    start_timestamp := none
    current_offset := 0
    last_position := 0
    active_segment := false }

/-- `play(...)` raises `KeyError` for a track that was never preloaded. -/
inductive PlayError where
  | notPreloaded
deriving DecidableEq

/-- Backend environment for one `play`/`seek` call: the injected clock value
and whether `mixer.Sound(buffer=...)` succeeds. -/
structure ActEnv where
  now : ℚ
  buffer_ok : Bool
deriving DecidableEq

/-- `TrackPlayer.play(track_id, start=...)`.  The `KeyError` is raised before
any mutation.  `find_channel()`/`Channel(0)` always yields a channel. -/
def play (s : PlayerState) (track_id : String) (start : ℚ) (env : ActEnv) :
    Except PlayError PlayerState :=
  if (lookup s.sounds track_id).isSome = false then .error .notPreloaded
  else
    let s1 := stop s
    let r := prepare_sound s1 track_id start env.buffer_ok
    if r.1 = false then
      .ok { s1 with
        current_track := some track_id
        current_offset := r.2.1
        last_position := r.2.1
        start_timestamp := none }
    else
      .ok { s1 with
        has_channel := true
        current_track := some track_id
        current_offset := max 0 r.2.1
        last_position := max 0 r.2.1
        start_timestamp := some env.now
        active_segment := r.2.2 }

/-- Backend environment for one `is_playing`/`get_current_position` call:
`channel.get_busy()`, `channel.get_pos()` (`none` models the
`AttributeError` path) and the injected clock value. -/
structure QueryEnv where
  busy : Bool
  pos_ms : Option Int
  now : ℚ
deriving DecidableEq

/-- `TrackPlayer.is_playing()`. -/
def is_playing (s : PlayerState) (env : QueryEnv) : Bool :=
  s.has_channel && env.busy

/-- `TrackPlayer.set_volume(volume)`: clamps to `[0, 1]` and applies to every
preloaded sound (the channel's volume is external state). -/
def set_volume (s : PlayerState) (volume : ℚ) : PlayerState :=
  let clamped := max 0 (min volume 1)
  { s with sounds := s.sounds.map (fun p => (p.1, clamped)) }

/-- `channel.get_pos()` wrapped in `try/except AttributeError: -1`. -/
def channelPosMs (env : QueryEnv) : Int :=
  match env.pos_ms with
  | some p => p
  | none => -1

/-- The condition under which `get_current_position` uses the channel's own
report: `channel and channel.get_busy()` and then
`channel_pos_ms and channel_pos_ms >= 0` (Python truthiness: non-zero). -/
def channelReports (s : PlayerState) (env : QueryEnv) : Bool :=
  s.has_channel && env.busy && decide (channelPosMs env ≠ 0) &&
    decide (0 ≤ channelPosMs env)

/-- `TrackPlayer.get_current_position()`: the returned position and the
updated state (`self._last_position` is written).  `length` is
`self.get_track_length(...) or 0.0`; `if length:` clamps only when the
recorded length is non-zero. -/
def get_current_position (s : PlayerState) (env : QueryEnv) : ℚ × PlayerState :=
  if strFalsy s.current_track = true then (0, s)
  else
    let track_id := s.current_track.getD ""
    let length := (get_track_length s track_id).getD 0
    let pos1 :=
      if channelReports s env = true then
        s.current_offset + (channelPosMs env : ℚ) / 1000
      else
        match s.start_timestamp with
        | some ts => s.current_offset + max 0 (env.now - ts)
        | none => s.current_offset
    let pos2 := if length = 0 then pos1 else min pos1 length
    (pos2, { s with last_position := pos2 })

/-- `TrackPlayer.seek(position)`. -/
def seek (s : PlayerState) (position : ℚ) (env : ActEnv) : PlayerState :=
  if strFalsy s.current_track = true then s
  else
    let track_id := s.current_track.getD ""
    let length := get_track_length s track_id
    let position1 :=
      match length with
      | some L => if 0 < L then max 0 (min position L) else max 0 position
      | none => max 0 position
    let r := prepare_sound s track_id position1 env.buffer_ok
    if r.1 = false then
      let s1 := stop s
      { s1 with
        current_track := some track_id
        current_offset := r.2.1
        last_position := r.2.1 }
    else
      { s with
        has_channel := true
        current_offset := r.2.1
        start_timestamp := some env.now
        last_position := r.2.1
        current_track := some track_id
        active_segment := r.2.2 }

/-- `TrackPlayer.close()`: `self.stop()` then `mixer.quit()` (external). -/
def close (s : PlayerState) : PlayerState :=
  stop s

/-- States reachable through the public interface from a fresh instance.
The preload environment is constrained to non-negative reported lengths
(`pygame.mixer.Sound.get_length` returns a duration in seconds). -/
inductive Reachable : PlayerState → Prop where
  | init (info : Option (ℕ × Int × ℕ)) : Reachable (initState info)
  | preload_step (s : PlayerState) (tracks : List Track)
      (env : String → LoadResult)
      (hlen : ∀ p, 0 ≤ (env p).length_res.getD 0)
      (hs : Reachable s) : Reachable (preload s tracks env).1
  | play_step (s : PlayerState) (track_id : String) (start : ℚ) (env : ActEnv)
      (s' : PlayerState) (hs : Reachable s)
      (h : play s track_id start env = .ok s') : Reachable s'
  | stop_step (s : PlayerState) (hs : Reachable s) : Reachable (stop s)
  | seek_step (s : PlayerState) (position : ℚ) (env : ActEnv)
      (hs : Reachable s) : Reachable (seek s position env)
  | set_volume_step (s : PlayerState) (v : ℚ) (hs : Reachable s) :
      Reachable (set_volume s v)
  | get_position_step (s : PlayerState) (env : QueryEnv) (hs : Reachable s) :
      Reachable (get_current_position s env).2
  | close_step (s : PlayerState) (hs : Reachable s) : Reachable (close s)

/-! ## Dictionary lemmas -/

theorem lookup_mem {α : Type} {m : List (String × α)} {k : String} {v : α}
    (h : lookup m k = some v) : (k, v) ∈ m := by
  unfold lookup at h
  cases hf : m.find? (fun p => p.1 == k) with
  | none => rw [hf] at h; simp at h
  | some p =>
    rw [hf] at h
    have hmem := List.mem_of_find?_eq_some hf
    have hp := List.find?_some hf
    have h1 : p.1 = k := by simpa using hp
    have h2 : p.2 = v := by simpa using h
    have : p = (k, v) := by
      cases p; simp_all
    rwa [this] at hmem

theorem lookup_isSome_iff {α : Type} (m : List (String × α)) (k : String) :
    (lookup m k).isSome = true ↔ k ∈ m.map Prod.fst := by
  unfold lookup
  constructor
  · intro h
    cases hf : m.find? (fun p => p.1 == k) with
    | none => rw [hf] at h; simp at h
    | some p =>
      have hmem := List.mem_of_find?_eq_some hf
      have hp : p.1 = k := by simpa using List.find?_some hf
      exact List.mem_map.2 ⟨p, hmem, hp⟩
  · intro h
    obtain ⟨p, hp, hk⟩ := List.mem_map.1 h
    cases hf : m.find? (fun p => p.1 == k) with
    | some q => rfl
    | none =>
      have := List.find?_eq_none.1 hf p hp
      simp [hk] at this

theorem dictInsert_keys {α : Type} (m : List (String × α)) (k : String) (v : α) :
    (dictInsert m k v).map Prod.fst =
      if (lookup m k).isSome then m.map Prod.fst else m.map Prod.fst ++ [k] := by
  unfold dictInsert
  split
  · rw [List.map_map]
    apply List.map_congr_left
    intro p _
    by_cases hp : p.1 = k <;> simp [hp]
  · simp

theorem dictInsert_nodup {α : Type} {m : List (String × α)} (k : String) (v : α)
    (h : (m.map Prod.fst).Nodup) : ((dictInsert m k v).map Prod.fst).Nodup := by
  rw [dictInsert_keys]
  split
  · exact h
  · rename_i hnone
    rw [List.nodup_append]
    refine ⟨h, List.nodup_singleton k, ?_⟩
    intro a ha hb
    have hb' : a = k := by simpa using hb
    subst hb'
    exact hnone ((lookup_isSome_iff m a).2 ha)

theorem dictInsert_forall {α : Type} {P : α → Prop} {m : List (String × α)}
    {k : String} {v : α} (hm : ∀ p ∈ m, P p.2) (hv : P v) :
    ∀ p ∈ dictInsert m k v, P p.2 := by
  intro p hp
  unfold dictInsert at hp
  split at hp
  · obtain ⟨q, hq, hpe⟩ := List.mem_map.1 hp
    by_cases h : q.1 == k
    · rw [if_pos h] at hpe
      rw [← hpe]
      exact hv
    · rw [if_neg h] at hpe
      rw [← hpe]
      exact hm q hq
  · rcases List.mem_append.1 hp with h | h
    · exact hm p h
    · have : p = (k, v) := by simpa using h
      rw [this]
      exact hv

theorem lookup_isSome_dictInsert_self {α : Type} (m : List (String × α))
    (k : String) (v : α) : (lookup (dictInsert m k v) k).isSome = true := by
  rw [lookup_isSome_iff, dictInsert_keys]
  split
  · rename_i h
    exact (lookup_isSome_iff m k).1 h
  · simp

theorem lookup_isSome_dictInsert_mono {α : Type} {m : List (String × α)}
    {k' : String} (k : String) (v : α)
    (h : (lookup m k').isSome = true) :
    (lookup (dictInsert m k v) k').isSome = true := by
  rw [lookup_isSome_iff, dictInsert_keys]
  have := (lookup_isSome_iff m k').1 h
  split <;> simp [this]

/-! ## The state invariant -/

/-- Invariant of every reachable player state: the session offset and last
computed position are non-negative, every recorded length is non-negative,
and the sound map holds at most one entry per identifier. -/
def Inv (s : PlayerState) : Prop :=
  0 ≤ s.current_offset ∧ 0 ≤ s.last_position ∧
    (∀ p ∈ s.lengths, 0 ≤ p.2) ∧ (s.sounds.map Prod.fst).Nodup

theorem inv_initState (info : Option (ℕ × Int × ℕ)) : Inv (initState info) := by
  refine ⟨le_refl 0, le_refl 0, ?_, ?_⟩ <;> simp [initState]

theorem inv_stop {s : PlayerState} (h : Inv s) : Inv (stop s) := by
  obtain ⟨_, _, h3, h4⟩ := h
  exact ⟨le_refl 0, le_refl 0, h3, h4⟩

theorem inv_close {s : PlayerState} (h : Inv s) : Inv (close s) := inv_stop h

theorem inv_set_volume {s : PlayerState} (v : ℚ) (h : Inv s) :
    Inv (set_volume s v) := by
  obtain ⟨h1, h2, h3, h4⟩ := h
  refine ⟨h1, h2, h3, ?_⟩
  simp only [set_volume]
  rw [List.map_map]
  have : (Prod.fst ∘ fun p : String × ℚ => (p.1, max 0 (min v 1))) = Prod.fst := by
    funext p; rfl
  rw [this]
  exact h4

theorem inv_preloadOne {env : String → LoadResult} {s : PlayerState} (t : Track)
    (henv : ∀ p, 0 ≤ (env p).length_res.getD 0) (h : Inv s) :
    Inv (preloadOne env s t).1 := by
  obtain ⟨h1, h2, h3, h4⟩ := h
  simp only [preloadOne]
  split
  · exact ⟨h1, h2, h3, h4⟩
  · have hlen : ∀ p ∈ dictInsert s.lengths t.identifier
        ((env t.audio_path).length_res.getD 0), 0 ≤ p.2 :=
      dictInsert_forall h3 (henv t.audio_path)
    have hnd := dictInsert_nodup t.identifier (1 : ℚ) h4
    cases hraw : (env t.audio_path).raw_res with
    | none => exact ⟨h1, h2, hlen, hnd⟩
    | some n =>
      dsimp only
      by_cases hn : n ≠ 0
      · rw [if_pos hn]
        exact ⟨h1, h2, hlen, hnd⟩
      · rw [if_neg hn]
        exact ⟨h1, h2, hlen, hnd⟩

theorem prepare_sound_actual_nonneg (s : PlayerState) (track_id : String)
    (start : ℚ) (buffer_ok : Bool) (hlen : ∀ p ∈ s.lengths, 0 ≤ p.2) :
    0 ≤ (prepare_sound s track_id start buffer_ok).2.1 := by
  have hLs : ∀ L, lookup s.lengths track_id = some L → 0 ≤ L := fun L h =>
    hlen _ (lookup_mem h)
  simp only [prepare_sound]
  split
  · norm_num
  · rename_i h1
    push_neg at h1
    have hstart : 0 < start := h1.1
    split
    · norm_num
    · split
      · -- seek past the end of the buffer: `length or start`
        dsimp only
        cases hE : lookup s.lengths track_id with
        | none => exact le_of_lt hstart
        | some L =>
          dsimp only
          by_cases hL0 : L = 0
          · rw [if_pos hL0]
            by_cases hLp : 0 < L
            · rw [if_pos hLp]
              exact le_max_left 0 _
            · rw [if_neg hLp]
              exact le_of_lt hstart
          · rw [if_neg hL0]
            exact hLs L hE
      · split
        · -- partial segment constructed
          dsimp only
          have hact : 0 ≤ ((Nat.floor
              ((match lookup s.lengths track_id with
                | some L => if 0 < L then max 0 (min start L) else start
                | none => start) * ((s.sample_rate.getD 0 : ℕ) : ℚ)) *
                  s.bytes_per_frame.getD 0 : ℕ) : ℚ) /
                (((s.bytes_per_frame.getD 0 : ℕ) : ℚ) *
                  ((s.sample_rate.getD 0 : ℕ) : ℚ)) := by
            apply div_nonneg (Nat.cast_nonneg _)
            exact mul_nonneg (Nat.cast_nonneg _) (Nat.cast_nonneg _)
          cases hE : lookup s.lengths track_id with
          | none => simpa [hE] using hact
          | some L =>
            dsimp only
            by_cases hLp : 0 < L
            · rw [if_pos hLp]
              refine le_min ?_ (le_of_lt hLp)
              simpa [hE] using hact
            · rw [if_neg hLp]
              simpa [hE] using hact
        · norm_num

theorem inv_preload {env : String → LoadResult} {s : PlayerState}
    (tracks : List Track) (henv : ∀ p, 0 ≤ (env p).length_res.getD 0)
    (h : Inv s) : Inv (preload s tracks env).1 := by
  induction tracks generalizing s with
  | nil => exact h
  | cons t rest ih =>
    simp only [preload]
    exact ih (inv_preloadOne t henv h)

theorem inv_play {s : PlayerState} {track_id : String} {start : ℚ}
    {env : ActEnv} {s' : PlayerState} (h : Inv s)
    (hp : play s track_id start env = .ok s') : Inv s' := by
  obtain ⟨h1, h2, h3, h4⟩ := h
  simp only [play] at hp
  split at hp
  · exact absurd hp (by simp)
  · split at hp <;> rw [Except.ok.injEq] at hp <;> subst hp
    · refine ⟨?_, ?_, h3, h4⟩ <;>
        exact prepare_sound_actual_nonneg (stop s) track_id start env.buffer_ok h3
    · exact ⟨le_max_left 0 _, le_max_left 0 _, h3, h4⟩

theorem inv_seek {s : PlayerState} (position : ℚ) (env : ActEnv) (h : Inv s) :
    Inv (seek s position env) := by
  obtain ⟨h1, h2, h3, h4⟩ := h
  simp only [seek]
  split
  · exact ⟨h1, h2, h3, h4⟩
  · split
    · refine ⟨?_, ?_, h3, h4⟩ <;>
        exact prepare_sound_actual_nonneg s _ _ env.buffer_ok h3
    · refine ⟨?_, ?_, h3, h4⟩ <;>
        exact prepare_sound_actual_nonneg s _ _ env.buffer_ok h3

theorem get_current_position_nonneg {s : PlayerState} (env : QueryEnv)
    (h : Inv s) : 0 ≤ (get_current_position s env).1 := by
  obtain ⟨h1, h2, h3, h4⟩ := h
  simp only [get_current_position]
  split
  · norm_num
  · have hlen0 : 0 ≤ ((get_track_length s (s.current_track.getD "")).getD 0) := by
      unfold get_track_length
      cases hE : lookup s.lengths (s.current_track.getD "") with
      | none => norm_num
      | some L => simpa using h3 _ (lookup_mem hE)
    have hpos1 : 0 ≤ (if channelReports s env = true then
        s.current_offset + (channelPosMs env : ℚ) / 1000
      else
        match s.start_timestamp with
        | some ts => s.current_offset + max 0 (env.now - ts)
        | none => s.current_offset) := by
      split
      · rename_i hc
        simp only [channelReports, Bool.and_eq_true, decide_eq_true_eq] at hc
        have hcast : (0:ℚ) ≤ (channelPosMs env : ℚ) := by
          exact_mod_cast hc.2
        exact add_nonneg h1 (div_nonneg hcast (by norm_num))
      · cases s.start_timestamp
        · exact h1
        · exact add_nonneg h1 (le_max_left 0 _)
    dsimp only
    split
    · exact hpos1
    · exact le_min hpos1 hlen0

theorem get_current_position_sets_last (s : PlayerState) (env : QueryEnv) :
    (get_current_position s env).2 = s ∨
      (get_current_position s env).2 =
        { s with last_position := (get_current_position s env).1 } := by
  simp only [get_current_position]
  split
  · exact Or.inl rfl
  · exact Or.inr rfl

theorem inv_get_position {s : PlayerState} (env : QueryEnv) (h : Inv s) :
    Inv (get_current_position s env).2 := by
  rcases get_current_position_sets_last s env with hE | hE
  · rw [hE]; exact h
  · rw [hE]
    obtain ⟨h1, h2, h3, h4⟩ := h
    exact ⟨h1, get_current_position_nonneg env ⟨h1, h2, h3, h4⟩, h3, h4⟩

/-- Every reachable player state satisfies the invariant. -/
theorem reachable_inv {s : PlayerState} (h : Reachable s) : Inv s := by
  induction h with
  | init info => exact inv_initState info
  | preload_step s tracks env hlen hs ih => exact inv_preload tracks hlen ih
  | play_step s track_id start env s' hs hp ih => exact inv_play ih hp
  | stop_step s hs ih => exact inv_stop ih
  | seek_step s position env hs ih => exact inv_seek position env ih
  | set_volume_step s v hs ih => exact inv_set_volume v ih
  | get_position_step s env hs ih => exact inv_get_position env ih
  | close_step s hs ih => exact inv_close ih

/-! ## Concrete example states, used by witnesses and counterexamples -/

def demoTrack : Track := { identifier := "a", audio_path := "a.wav" }

/-- A backend that reports a 4-second track at 22050 Hz mono 16-bit:
`4 * 22050` frames of 2 bytes = 176400 bytes of raw audio. -/
def demoLoadEnv : String → LoadResult :=
  fun _ => { length_res := some 4, raw_res := some 176400 }

/-- A fresh player on a 22050 Hz, signed-16-bit, mono mixer
(`bytes_per_frame = 2`). -/
def demoInit : PlayerState := initState (some (22050, -16, 1))

def demoIdle : PlayerState :=
  { sounds := [("a", 1)], lengths := [("a", 4)], raw_audio := [("a", 176400)],
    sample_rate := some 22050, bytes_per_frame := some 2,
    current_track := none, has_channel := false, active_segment := false,
    start_timestamp := none, current_offset := 0, last_position := 0 }

theorem demoIdle_eq : (preload demoInit [demoTrack] demoLoadEnv).1 = demoIdle := by
  simp [preload, preloadOne, demoInit, initState, demoLoadEnv, demoTrack,
    lookup, dictInsert, demoIdle]

theorem demoIdle_reachable : Reachable demoIdle := by
  rw [← demoIdle_eq]
  exact Reachable.preload_step demoInit [demoTrack] demoLoadEnv
    (fun p => by simp [demoLoadEnv]) (Reachable.init _)

def demoPlaying : PlayerState :=
  { demoIdle with current_track := some "a", has_channel := true,
                  start_timestamp := some 0 }

theorem demoPlaying_eq : play demoIdle "a" 0 ⟨0, true⟩ = .ok demoPlaying := by
  simp [play, stop, prepare_sound, supports_seeking, demoIdle, demoPlaying, lookup]

theorem demoPlaying_reachable : Reachable demoPlaying :=
  Reachable.play_step demoIdle "a" 0 ⟨0, true⟩ demoPlaying demoIdle_reachable
    demoPlaying_eq

/-- A backend whose sound cannot report its length: `preload` records 0.0. -/
def demoZeroLoadEnv : String → LoadResult :=
  fun _ => { length_res := some 0, raw_res := some 1000 }

def demoZeroIdle : PlayerState :=
  { demoIdle with lengths := [("a", 0)], raw_audio := [("a", 1000)] }

theorem demoZeroIdle_eq :
    (preload demoInit [demoTrack] demoZeroLoadEnv).1 = demoZeroIdle := by
  simp [preload, preloadOne, demoInit, initState, demoZeroLoadEnv, demoTrack,
    lookup, dictInsert, demoZeroIdle, demoIdle]

theorem demoZeroIdle_reachable : Reachable demoZeroIdle := by
  rw [← demoZeroIdle_eq]
  exact Reachable.preload_step demoInit [demoTrack] demoZeroLoadEnv
    (fun p => by simp [demoZeroLoadEnv]) (Reachable.init _)

def demoZeroPlaying : PlayerState :=
  { demoZeroIdle with current_track := some "a", has_channel := true,
                      start_timestamp := some 0 }

theorem demoZeroPlaying_eq :
    play demoZeroIdle "a" 0 ⟨0, true⟩ = .ok demoZeroPlaying := by
  simp [play, stop, prepare_sound, supports_seeking, demoZeroIdle, demoIdle,
    demoZeroPlaying, lookup]

theorem demoZeroPlaying_reachable : Reachable demoZeroPlaying :=
  Reachable.play_step demoZeroIdle "a" 0 ⟨0, true⟩ demoZeroPlaying
    demoZeroIdle_reachable demoZeroPlaying_eq

/-- A backend that exposes no raw sample data: seeking is unsupported. -/
def demoNoRawLoadEnv : String → LoadResult :=
  fun _ => { length_res := some 3, raw_res := none }

def demoNoRawIdle : PlayerState :=
  { demoIdle with lengths := [("a", 3)], raw_audio := [] }

theorem demoNoRawIdle_eq :
    (preload demoInit [demoTrack] demoNoRawLoadEnv).1 = demoNoRawIdle := by
  simp [preload, preloadOne, demoInit, initState, demoNoRawLoadEnv, demoTrack,
    lookup, dictInsert, demoNoRawIdle, demoIdle]

theorem demoNoRawIdle_reachable : Reachable demoNoRawIdle := by
  rw [← demoNoRawIdle_eq]
  exact Reachable.preload_step demoInit [demoTrack] demoNoRawLoadEnv
    (fun p => by simp [demoNoRawLoadEnv]) (Reachable.init _)

def demoNoRawPlaying : PlayerState :=
  { demoNoRawIdle with current_track := some "a", has_channel := true,
                       start_timestamp := some 0 }

theorem demoNoRawPlaying_eq :
    play demoNoRawIdle "a" 0 ⟨0, true⟩ = .ok demoNoRawPlaying := by
  simp [play, stop, prepare_sound, supports_seeking, demoNoRawIdle, demoIdle,
    demoNoRawPlaying, lookup]

theorem demoNoRawPlaying_reachable : Reachable demoNoRawPlaying :=
  Reachable.play_step demoNoRawIdle "a" 0 ⟨0, true⟩ demoNoRawPlaying
    demoNoRawIdle_reachable demoNoRawPlaying_eq

/-- The state after `play("a", start=5)` on the 4-second demo track: the
aligned byte offset (`floor(4·22050)·2 = 176400`) reaches the end of the
buffer, so no segment is produced; the track stays current but nothing
plays. -/
def demoPastEnd : PlayerState :=
  { demoIdle with current_track := some "a", current_offset := 4,
                  last_position := 4 }

theorem demoPastEnd_eq : play demoIdle "a" 5 ⟨0, true⟩ = .ok demoPastEnd := by
  have hfl : Nat.floor ((4:ℚ) * 22050) = 88200 := by norm_num
  simp [play, stop, prepare_sound, supports_seeking, demoIdle, demoPastEnd,
    lookup, hfl]
  norm_num

theorem demoPastEnd_reachable : Reachable demoPastEnd :=
  Reachable.play_step demoIdle "a" 5 ⟨0, true⟩ demoPastEnd demoIdle_reachable
    demoPastEnd_eq

/-! ## Preload bookkeeping lemmas (for C6) -/

theorem preloadOne_lookup_isSome_mono {env : String → LoadResult}
    {s : PlayerState} {k : String} (t : Track)
    (h : (lookup s.sounds k).isSome = true) :
    (lookup (preloadOne env s t).1.sounds k).isSome = true := by
  simp only [preloadOne]
  split
  · exact h
  · cases hraw : (env t.audio_path).raw_res with
    | none => exact lookup_isSome_dictInsert_mono _ _ h
    | some n =>
      dsimp only
      by_cases hn : n ≠ 0
      · rw [if_pos hn]
        exact lookup_isSome_dictInsert_mono _ _ h
      · rw [if_neg hn]
        exact lookup_isSome_dictInsert_mono _ _ h

theorem preloadOne_lookup_isSome_self (env : String → LoadResult)
    (s : PlayerState) (t : Track) :
    (lookup (preloadOne env s t).1.sounds t.identifier).isSome = true := by
  simp only [preloadOne]
  split
  · rename_i h
    exact h
  · cases hraw : (env t.audio_path).raw_res with
    | none => exact lookup_isSome_dictInsert_self _ _ _
    | some n =>
      dsimp only
      by_cases hn : n ≠ 0
      · rw [if_pos hn]
        exact lookup_isSome_dictInsert_self _ _ _
      · rw [if_neg hn]
        exact lookup_isSome_dictInsert_self _ _ _

theorem preload_lookup_isSome_mono {env : String → LoadResult}
    {s : PlayerState} {k : String} (tracks : List Track)
    (h : (lookup s.sounds k).isSome = true) :
    (lookup (preload s tracks env).1.sounds k).isSome = true := by
  induction tracks generalizing s with
  | nil => exact h
  | cons t rest ih =>
    simp only [preload]
    exact ih (preloadOne_lookup_isSome_mono t h)

theorem preload_all_present (env : String → LoadResult) (s : PlayerState)
    (tracks : List Track) :
    ∀ t ∈ tracks,
      (lookup (preload s tracks env).1.sounds t.identifier).isSome = true := by
  induction tracks generalizing s with
  | nil => intro t ht; simp at ht
  | cons t0 rest ih =>
    intro t ht
    simp only [preload]
    rcases List.mem_cons.1 ht with rfl | ht'
    · exact preload_lookup_isSome_mono rest
        (preloadOne_lookup_isSome_self env s t)
    · exact ih _ t ht'

theorem preloadOne_skip {env : String → LoadResult} {s : PlayerState}
    {t : Track} (h : (lookup s.sounds t.identifier).isSome = true) :
    preloadOne env s t = (s, 0) := by
  simp only [preloadOne]
  rw [if_pos h]

theorem preload_skip {env : String → LoadResult} {s : PlayerState}
    {tracks : List Track}
    (h : ∀ t ∈ tracks, (lookup s.sounds t.identifier).isSome = true) :
    preload s tracks env = (s, 0) := by
  induction tracks with
  | nil => rfl
  | cons t rest ih =>
    simp only [preload]
    rw [preloadOne_skip (h t (List.mem_cons_self t rest))]
    rw [ih (fun t' ht' => h t' (List.mem_cons_of_mem t ht'))]
    rfl

theorem preloadOne_sounds_nodup {env : String → LoadResult} {s : PlayerState}
    (t : Track) (h : (s.sounds.map Prod.fst).Nodup) :
    ((preloadOne env s t).1.sounds.map Prod.fst).Nodup := by
  simp only [preloadOne]
  split
  · exact h
  · cases hraw : (env t.audio_path).raw_res with
    | none => exact dictInsert_nodup _ _ h
    | some n =>
      dsimp only
      by_cases hn : n ≠ 0
      · rw [if_pos hn]
        exact dictInsert_nodup _ _ h
      · rw [if_neg hn]
        exact dictInsert_nodup _ _ h

theorem preload_sounds_nodup {env : String → LoadResult} {s : PlayerState}
    (tracks : List Track) (h : (s.sounds.map Prod.fst).Nodup) :
    ((preload s tracks env).1.sounds.map Prod.fst).Nodup := by
  induction tracks generalizing s with
  | nil => exact h
  | cons t rest ih =>
    simp only [preload]
    exact ih (preloadOne_sounds_nodup t h)

/-! ## Claim theorems -/

/-- C10: every public operation (preload, play, stop, seek, set_volume,
get_current_position, close) preserves the invariant that the session's
current offset and last computed position are non-negative — so they hold
in every reachable state, for every sequence of calls and argument
values. -/
theorem c10_offsets_nonneg {s : PlayerState} (h : Reachable s) :
    0 ≤ s.current_offset ∧ 0 ≤ s.last_position := by
  obtain ⟨h1, h2, _, _⟩ := reachable_inv h
  exact ⟨h1, h2⟩

/-- Witness for C10 at a concrete reachable state. -/
theorem c10_offsets_nonneg_witness :
    0 ≤ demoPlaying.current_offset ∧ 0 ≤ demoPlaying.last_position :=
  c10_offsets_nonneg demoPlaying_reachable

/-- C9: when no track is current, `get_current_position()` returns exactly
0 and leaves the state untouched, independently of what the backend channel
or the clock would report; and the initial state as well as every state
immediately after `stop()` has no current track. -/
theorem c9_idle_position_zero :
    (∀ (s : PlayerState) (env : QueryEnv), s.current_track = none →
      get_current_position s env = (0, s)) ∧
    (∀ s : PlayerState, (stop s).current_track = none) ∧
    (∀ info : Option (ℕ × Int × ℕ), (initState info).current_track = none) := by
  refine ⟨?_, fun s => rfl, fun info => rfl⟩
  intro s env hnone
  simp [get_current_position, strFalsy, hnone]

/-- Witness for C9: a concrete idle state queried with a busy channel
reporting 5000 ms and a large clock value still reports position 0. -/
theorem c9_idle_position_zero_witness :
    get_current_position (initState none) ⟨true, some 5000, 99⟩ =
      (0, initState none) :=
  c9_idle_position_zero.1 (initState none) ⟨true, some 5000, 99⟩ rfl

/-- C5: `play(track_id)` fails with the not-preloaded error exactly when the
identifier is missing from the sound map — the check precedes every
mutation, so the session state is untouched on that path — and for a
preloaded identifier it never raises that error. -/
theorem c5_play_requires_preload (s : PlayerState) (track_id : String)
    (start : ℚ) (env : ActEnv) :
    (lookup s.sounds track_id = none →
      play s track_id start env = .error .notPreloaded) ∧
    ((lookup s.sounds track_id).isSome = true →
      ∃ s', play s track_id start env = .ok s') := by
  constructor
  · intro hnone
    simp [play, hnone]
  · intro hsome
    simp only [play, hsome]
    rw [if_neg (by simp)]
    split
    · exact ⟨_, rfl⟩
    · exact ⟨_, rfl⟩

/-- Witness for C5: `play("b")` on a player that only preloaded `"a"` fails
with the not-preloaded error; `play("a")` succeeds. -/
theorem c5_play_requires_preload_witness :
    play demoIdle "b" 0 ⟨0, true⟩ = .error .notPreloaded ∧
    ∃ s', play demoIdle "a" 0 ⟨0, true⟩ = .ok s' :=
  ⟨(c5_play_requires_preload demoIdle "b" 0 ⟨0, true⟩).1
      (by simp [demoIdle, lookup]),
   (c5_play_requires_preload demoIdle "a" 0 ⟨0, true⟩).2
      (by simp [demoIdle, lookup])⟩

/-- C7 (amended): `seek` is a no-op exactly when no track is current
(`self._current_track` is `None` or empty) — the code guards on the current
track, not on `is_playing()`. -/
theorem c7_seek_noop_without_track (s : PlayerState) (position : ℚ)
    (env : ActEnv) (h : strFalsy s.current_track = true) :
    seek s position env = s := by
  simp [seek, h]

/-- Witness for C7 (amended) on the fresh player. -/
theorem c7_seek_noop_without_track_witness :
    seek (initState none) 5 ⟨0, true⟩ = initState none :=
  c7_seek_noop_without_track (initState none) 5 ⟨0, true⟩ rfl

/-- C7 counterexample: `demoPastEnd` is a reachable state (after
`play("a", start=5)` landed past the end of the buffer) in which
`is_playing()` is false under every backend report, yet `seek(0)` is not a
no-op — it restarts playback of the full track. -/
theorem c7_counterexample :
    Reachable demoPastEnd ∧
    (∀ env : QueryEnv, is_playing demoPastEnd env = false) ∧
    seek demoPastEnd 0 ⟨0, true⟩ ≠ demoPastEnd := by
  have hseek : (seek demoPastEnd 0 ⟨0, true⟩).has_channel = true := by
    simp [seek, prepare_sound, supports_seeking, strFalsy, demoPastEnd,
      demoIdle, lookup, get_track_length]
  refine ⟨demoPastEnd_reachable, fun env => rfl, fun hEq => ?_⟩
  rw [hEq] at hseek
  simp [demoPastEnd, demoIdle] at hseek

/-- C6: `preload` is idempotent per track identifier: a second call with the
same track list leaves the whole state (sound, length and raw-audio maps)
unchanged and performs zero backend sound loads; and the sound map of the
resulting state holds at most one entry per identifier. -/
theorem c6_preload_idempotent (s : PlayerState) (tracks : List Track)
    (env env2 : String → LoadResult) (h : Reachable s) :
    preload (preload s tracks env).1 tracks env2 =
      ((preload s tracks env).1, 0) ∧
    ((preload s tracks env).1.sounds.map Prod.fst).Nodup := by
  constructor
  · exact preload_skip (fun t ht => preload_all_present env s tracks t ht)
  · exact preload_sounds_nodup tracks (reachable_inv h).2.2.2

/-- Witness for C6: a second preload of the demo track list is the identity
and performs zero loads. -/
theorem c6_preload_idempotent_witness :
    preload (preload demoInit [demoTrack] demoLoadEnv).1 [demoTrack]
        demoLoadEnv =
      ((preload demoInit [demoTrack] demoLoadEnv).1, 0) ∧
    ((preload demoInit [demoTrack] demoLoadEnv).1.sounds.map Prod.fst).Nodup :=
  c6_preload_idempotent demoInit [demoTrack] demoLoadEnv demoLoadEnv
    (Reachable.init _)

/-- The position value computed by `get_current_position` when a track is
current (the body of the non-early-return path, extracted for reuse in
proofs; `get_current_position_eq_posValue` ties it to the function). -/
def posValue (s : PlayerState) (e : QueryEnv) : ℚ :=
  let length := (get_track_length s (s.current_track.getD "")).getD 0
  let pos1 :=
    if channelReports s e = true then
      s.current_offset + (channelPosMs e : ℚ) / 1000
    else
      match s.start_timestamp with
      | some ts => s.current_offset + max 0 (e.now - ts)
      | none => s.current_offset
  if length = 0 then pos1 else min pos1 length

theorem get_current_position_eq_posValue {s : PlayerState} (e : QueryEnv)
    (hne : strFalsy s.current_track = false) :
    get_current_position s e =
      (posValue s e, { s with last_position := posValue s e }) := by
  simp only [get_current_position, posValue, hne]
  rw [if_neg (by simp)]

/-- Neither `channelReports` nor `posValue` depends on `last_position`. -/
theorem channelReports_set_last (s : PlayerState) (v : ℚ) (e : QueryEnv) :
    channelReports { s with last_position := v } e = channelReports s e := rfl

theorem posValue_set_last (s : PlayerState) (v : ℚ) (e : QueryEnv) :
    posValue { s with last_position := v } e = posValue s e := rfl

/-- C3 (amended): in every reachable state the position returned by
`get_current_position()` is non-negative, it is bounded by the recorded
track length whenever that length is positive, and it is 0 when no track is
current.  (When the recorded length is 0 — the "unknown" fallback — the
code applies no upper clamp; see the counterexample.) -/
theorem c3_position_clamped {s : PlayerState} (env : QueryEnv)
    (h : Reachable s) :
    0 ≤ (get_current_position s env).1 ∧
    (∀ tid L, s.current_track = some tid → lookup s.lengths tid = some L →
      0 < L → (get_current_position s env).1 ≤ L) ∧
    (s.current_track = none → (get_current_position s env).1 = 0) := by
  refine ⟨get_current_position_nonneg env (reachable_inv h), ?_, ?_⟩
  · intro tid L hcur hlen hL
    simp only [get_current_position]
    split
    · exact le_of_lt hL
    · dsimp only
      rw [hcur, Option.getD_some]
      simp only [get_track_length, hlen, Option.getD_some]
      rw [if_neg (ne_of_gt hL)]
      exact min_le_right _ _
  · intro hnone
    simp [get_current_position, strFalsy, hnone]

/-- Witness for C3 (amended) at a concrete playing state. -/
theorem c3_position_clamped_witness :
    0 ≤ (get_current_position demoPlaying ⟨true, some 2000, 1⟩).1 ∧
    (∀ tid L, demoPlaying.current_track = some tid →
      lookup demoPlaying.lengths tid = some L → 0 < L →
      (get_current_position demoPlaying ⟨true, some 2000, 1⟩).1 ≤ L) ∧
    (demoPlaying.current_track = none →
      (get_current_position demoPlaying ⟨true, some 2000, 1⟩).1 = 0) :=
  c3_position_clamped ⟨true, some 2000, 1⟩ demoPlaying_reachable

/-- C3 counterexample: in the reachable state `demoZeroPlaying` the track
`"a"` is current with recorded length 0.0 (the backend reported length 0 at
preload), and a busy channel reporting 2000 ms makes
`get_current_position()` return 2 — outside `[0, track_length] = [0, 0]`,
so the result is not clamped to the recorded length. -/
theorem c3_counterexample :
    Reachable demoZeroPlaying ∧
    demoZeroPlaying.current_track = some "a" ∧
    lookup demoZeroPlaying.lengths "a" = some 0 ∧
    (get_current_position demoZeroPlaying ⟨true, some 2000, 5⟩).1 = 2 ∧
    ¬ ((get_current_position demoZeroPlaying ⟨true, some 2000, 5⟩).1 ≤
        (lookup demoZeroPlaying.lengths "a").getD 0) := by
  have hval : (get_current_position demoZeroPlaying ⟨true, some 2000, 5⟩).1 = 2 := by
    simp [get_current_position, channelReports, channelPosMs, strFalsy,
      get_track_length, demoZeroPlaying, demoZeroIdle, demoIdle, lookup]
    norm_num
  refine ⟨demoZeroPlaying_reachable, rfl, ?_, hval, ?_⟩
  · simp [demoZeroPlaying, demoZeroIdle, demoIdle, lookup]
  · rw [hval]
    simp [demoZeroPlaying, demoZeroIdle, demoIdle, lookup]

/-- C4 (amended): while a track stays current and both of two successive
`get_current_position()` calls draw from the clock fallback (the channel
yields no positive position report), the results are non-decreasing under a
monotonic injected clock.  (When the channel does report, the code trusts
the report unconditionally, so a misreporting backend can decrease the
position — see the counterexample.) -/
theorem c4_monotone_clock_fallback (s : PlayerState) (e1 e2 : QueryEnv)
    (hmono : e1.now ≤ e2.now)
    (h1 : channelReports s e1 = false)
    (h2 : channelReports (get_current_position s e1).2 e2 = false) :
    (get_current_position s e1).1 ≤
      (get_current_position (get_current_position s e1).2 e2).1 := by
  by_cases hf : strFalsy s.current_track = true
  · have hA : get_current_position s e1 = (0, s) := by
      simp [get_current_position, hf]
    have hB : get_current_position s e2 = (0, s) := by
      simp [get_current_position, hf]
    rw [hA]
    simp [hB]
  · have hf' : strFalsy s.current_track = false := by
      revert hf; cases strFalsy s.current_track <;> simp
    rw [get_current_position_eq_posValue e1 hf'] at h2 ⊢
    dsimp only at h2 ⊢
    rw [@get_current_position_eq_posValue
      { s with last_position := posValue s e1 } e2 hf']
    dsimp only
    rw [posValue_set_last s (posValue s e1) e2]
    rw [channelReports_set_last s (posValue s e1) e2] at h2
    simp only [posValue, get_track_length]
    rw [h1, h2]
    simp only [Bool.false_eq_true, if_false]
    have hA : (match s.start_timestamp with
        | some ts => s.current_offset + max 0 (e1.now - ts)
        | none => s.current_offset) ≤
        (match s.start_timestamp with
        | some ts => s.current_offset + max 0 (e2.now - ts)
        | none => s.current_offset) := by
      cases s.start_timestamp with
      | none => exact le_refl _
      | some ts =>
        exact add_le_add_left (max_le_max (le_refl 0)
          (sub_le_sub_right hmono ts)) _
    by_cases hlen : (lookup s.lengths (s.current_track.getD "")).getD 0 = 0
    · rw [if_pos hlen, if_pos hlen]
      exact hA
    · rw [if_neg hlen, if_neg hlen]
      exact min_le_min hA (le_refl _)

/-- Witness for C4 (amended): two clock-fallback reads at clock times 1 and
1.5 on the demo playing state. -/
theorem c4_monotone_clock_fallback_witness :
    (get_current_position demoPlaying ⟨false, some 0, 1⟩).1 ≤
      (get_current_position (get_current_position demoPlaying
        ⟨false, some 0, 1⟩).2 ⟨false, some 0, 3/2⟩).1 :=
  c4_monotone_clock_fallback demoPlaying ⟨false, some 0, 1⟩ ⟨false, some 0, 3/2⟩
    (by norm_num) (by simp [channelReports]) (by simp [channelReports])

/-- C4 counterexample: from the reachable playing state `demoPlaying`, with
a monotonic clock (1 then 1.5), a backend channel whose position reports go
backwards (2000 ms then 1000 ms) makes two consecutive
`get_current_position()` calls return 2 then 1: the code trusts the channel
report, and consecutive positions decrease. -/
theorem c4_counterexample :
    Reachable demoPlaying ∧
    (⟨true, some 2000, 1⟩ : QueryEnv).now ≤ (⟨true, some 1000, 3/2⟩ : QueryEnv).now ∧
    ¬ ((get_current_position demoPlaying ⟨true, some 2000, 1⟩).1 ≤
        (get_current_position (get_current_position demoPlaying
          ⟨true, some 2000, 1⟩).2 ⟨true, some 1000, 3/2⟩).1) := by
  have h1v : (get_current_position demoPlaying ⟨true, some 2000, 1⟩).1 = 2 := by
    simp [get_current_position, channelReports, channelPosMs, strFalsy,
      get_track_length, demoPlaying, demoIdle, lookup]
    norm_num
  have h2state : (get_current_position demoPlaying ⟨true, some 2000, 1⟩).2 =
      { demoPlaying with last_position := 2 } := by
    rw [get_current_position_eq_posValue _ (by simp [demoPlaying, demoIdle, strFalsy])]
    have : posValue demoPlaying ⟨true, some 2000, 1⟩ = 2 := by
      simp [posValue, channelReports, channelPosMs, get_track_length,
        demoPlaying, demoIdle, lookup]
      norm_num
    rw [this]
  have h2v : (get_current_position ({ demoPlaying with last_position := 2 })
      ⟨true, some 1000, 3/2⟩).1 = 1 := by
    simp [get_current_position, channelReports, channelPosMs, strFalsy,
      get_track_length, demoPlaying, demoIdle, lookup]
  refine ⟨demoPlaying_reachable, by norm_num, ?_⟩
  rw [h1v, h2state, h2v]
  norm_num

/-! ## Frame arithmetic -/

theorem frames_div_eq (n rate bpf : ℕ) (hr : 0 < rate) (hb : 0 < bpf) :
    ((n * bpf : ℕ) : ℚ) / ((bpf : ℚ) * (rate : ℚ)) = (n : ℚ) / rate := by
  have hrq : ((rate : ℕ) : ℚ) ≠ 0 := by
    exact_mod_cast Nat.pos_iff_ne_zero.1 hr
  have hbq : ((bpf : ℕ) : ℚ) ≠ 0 := by
    exact_mod_cast Nat.pos_iff_ne_zero.1 hb
  push_cast
  field_simp
  ring

theorem floor_div_le {x : ℚ} {rate : ℕ} (hr : 0 < rate) (hx : 0 ≤ x) :
    ((Nat.floor (x * rate) : ℕ) : ℚ) / rate ≤ x := by
  have hrq : (0 : ℚ) < rate := by exact_mod_cast hr
  rw [div_le_iff₀ hrq]
  exact Nat.floor_le (by positivity)

theorem floor_div_gt {x : ℚ} {rate : ℕ} (hr : 0 < rate) :
    x - 1 / rate < ((Nat.floor (x * rate) : ℕ) : ℚ) / rate := by
  have hrq : (0 : ℚ) < rate := by exact_mod_cast hr
  rw [sub_lt_iff_lt_add, div_add_div_same, lt_div_iff₀ hrq]
  have := Nat.lt_floor_add_one (x * rate)
  linarith

/-! ## `_prepare_sound` case characterisations -/

theorem prepare_sound_past_end (s : PlayerState) (tid : String) (L start : ℚ)
    (rawLen rate bpf : ℕ) (ok : Bool)
    (hlen : lookup s.lengths tid = some L) (hL : 0 < L)
    (hraw : lookup s.raw_audio tid = some rawLen) (hraw0 : 0 < rawLen)
    (hrate : s.sample_rate = some rate) (hr : 0 < rate)
    (hbpf : s.bytes_per_frame = some bpf) (hb : 0 < bpf)
    (hstart : 0 < start) (hsL : start ≤ L)
    (hcov : rawLen ≤ Nat.floor (start * rate) * bpf) :
    prepare_sound s tid start ok = (false, L, false) := by
  have hsupp : supports_seeking s tid = true := by
    simp [supports_seeking, hraw, hrate, hbpf]
  have hc1 : ¬ (start ≤ 0 ∨ supports_seeking s tid = false) := by
    push_neg
    exact ⟨hstart, by simp [hsupp]⟩
  have hc2 : ¬ (rawLen = 0 ∨ rate = 0 ∨ bpf = 0) := by
    push_neg
    exact ⟨Nat.pos_iff_ne_zero.1 hraw0, Nat.pos_iff_ne_zero.1 hr,
      Nat.pos_iff_ne_zero.1 hb⟩
  have hstart1 : (if 0 < L then max 0 (min start L) else start) = start := by
    rw [if_pos hL, min_eq_left hsL, max_eq_right (le_of_lt hstart)]
  simp only [prepare_sound, hlen, hraw, hrate, hbpf, Option.getD_some]
  rw [if_neg hc1, if_neg hc2, hstart1, if_pos hcov, if_neg (ne_of_gt hL)]

theorem prepare_sound_partial (s : PlayerState) (tid : String) (L start : ℚ)
    (rawLen rate bpf : ℕ)
    (hlen : lookup s.lengths tid = some L) (hL : 0 < L)
    (hraw : lookup s.raw_audio tid = some rawLen)
    (hrate : s.sample_rate = some rate) (hr : 0 < rate)
    (hbpf : s.bytes_per_frame = some bpf) (hb : 0 < bpf)
    (hstart : 0 < start) (hsL : start ≤ L)
    (hcov : Nat.floor (start * rate) * bpf < rawLen) :
    prepare_sound s tid start true =
      (true, ((Nat.floor (start * rate) * bpf : ℕ) : ℚ) /
        ((bpf : ℚ) * (rate : ℚ)), true) := by
  have hraw0 : 0 < rawLen := lt_of_le_of_lt (Nat.zero_le _) hcov
  have hsupp : supports_seeking s tid = true := by
    simp [supports_seeking, hraw, hrate, hbpf]
  have hc1 : ¬ (start ≤ 0 ∨ supports_seeking s tid = false) := by
    push_neg
    exact ⟨hstart, by simp [hsupp]⟩
  have hc2 : ¬ (rawLen = 0 ∨ rate = 0 ∨ bpf = 0) := by
    push_neg
    exact ⟨Nat.pos_iff_ne_zero.1 hraw0, Nat.pos_iff_ne_zero.1 hr,
      Nat.pos_iff_ne_zero.1 hb⟩
  have hstart1 : (if 0 < L then max 0 (min start L) else start) = start := by
    rw [if_pos hL, min_eq_left hsL, max_eq_right (le_of_lt hstart)]
  have hactle : ((Nat.floor (start * rate) * bpf : ℕ) : ℚ) /
      ((bpf : ℚ) * (rate : ℚ)) ≤ L := by
    rw [frames_div_eq _ _ _ hr hb]
    exact le_trans (floor_div_le hr (le_of_lt hstart)) hsL
  simp only [prepare_sound, hlen, hraw, hrate, hbpf, Option.getD_some]
  rw [if_neg hc1, if_neg hc2, hstart1, if_neg (not_le.2 hcov), if_pos trivial,
    if_pos hL, min_eq_left hactle]

theorem prepare_sound_buffer_fail (s : PlayerState) (tid : String) (start : ℚ)
    (rawLen rate bpf : ℕ)
    (hraw : lookup s.raw_audio tid = some rawLen)
    (hrate : s.sample_rate = some rate) (hr : 0 < rate)
    (hbpf : s.bytes_per_frame = some bpf) (hb : 0 < bpf)
    (hstart : 0 < start)
    (hsL : ∀ L, lookup s.lengths tid = some L → start ≤ L)
    (hcov : Nat.floor (start * rate) * bpf < rawLen) :
    prepare_sound s tid start false = (true, 0, false) := by
  have hraw0 : 0 < rawLen := lt_of_le_of_lt (Nat.zero_le _) hcov
  have hsupp : supports_seeking s tid = true := by
    simp [supports_seeking, hraw, hrate, hbpf]
  have hc1 : ¬ (start ≤ 0 ∨ supports_seeking s tid = false) := by
    push_neg
    exact ⟨hstart, by simp [hsupp]⟩
  have hc2 : ¬ (rawLen = 0 ∨ rate = 0 ∨ bpf = 0) := by
    push_neg
    exact ⟨Nat.pos_iff_ne_zero.1 hraw0, Nat.pos_iff_ne_zero.1 hr,
      Nat.pos_iff_ne_zero.1 hb⟩
  simp only [prepare_sound, hraw, hrate, hbpf, Option.getD_some]
  rw [if_neg hc1, if_neg hc2]
  cases hE : lookup s.lengths tid with
  | none =>
    dsimp only
    rw [if_neg (not_le.2 hcov), if_neg (by simp)]
  | some L =>
    dsimp only
    have hstart1 : (if 0 < L then max 0 (min start L) else start) = start := by
      by_cases hLp : 0 < L
      · rw [if_pos hLp, min_eq_left (hsL L hE), max_eq_right (le_of_lt hstart)]
      · rw [if_neg hLp]
    rw [hstart1, if_neg (not_le.2 hcov), if_neg (by simp)]

/-! ## `seek` / `get_current_position` shapes -/

theorem channelReports_of_nonpos {e : QueryEnv} (h : channelPosMs e ≤ 0)
    (s : PlayerState) : channelReports s e = false := by
  rcases lt_or_eq_of_le h with h' | h'
  · have hd : decide (0 ≤ channelPosMs e) = false := by
      simp [not_le.2 h']
    simp [channelReports, hd]
  · have hd : decide (channelPosMs e ≠ 0) = false := by simp [h']
    simp [channelReports, hd]

/-- After the `sound is None` branch of `seek` (seek past buffer end), the
reported position is the stored offset clamped by the recorded length. -/
theorem get_pos_stopped (s : PlayerState) (tid : String) (L A : ℚ)
    (e2 : QueryEnv) (hne : tid ≠ "")
    (hlen : lookup s.lengths tid = some L) (hL0 : L ≠ 0) :
    (get_current_position
      { stop s with current_track := some tid, current_offset := A,
                    last_position := A } e2).1 = min A L := by
  simp [get_current_position, get_track_length, strFalsy, hne, hlen,
    channelReports, stop, hL0]

/-- After the restart branch of `seek`, querying the position with the same
clock value and no positive channel report returns the new offset clamped
by the recorded length. -/
theorem get_pos_after_restart (s : PlayerState) (tid : String) (L A n : ℚ)
    (e2 : QueryEnv) (b : Bool) (hne : tid ≠ "")
    (hlen : lookup s.lengths tid = some L) (hL0 : L ≠ 0)
    (hq : channelPosMs e2 ≤ 0) (hnow : e2.now = n) :
    (get_current_position
      { s with has_channel := true, current_offset := A,
               start_timestamp := some n, last_position := A,
               current_track := some tid, active_segment := b } e2).1 =
      min A L := by
  simp [get_current_position, get_track_length, strFalsy, hne, hlen,
    channelReports_of_nonpos hq, hnow, hL0]

/-- `seek` when the clamped position produces a playable segment. -/
theorem seek_eq_restart (s : PlayerState) (tid : String) (position L A : ℚ)
    (e : ActEnv) (b : Bool)
    (hcur : s.current_track = some tid) (hne : tid ≠ "")
    (hE : lookup s.lengths tid = some L) (hL : 0 < L)
    (hprep : prepare_sound s tid (max 0 (min position L)) e.buffer_ok =
      (true, A, b)) :
    seek s position e =
      { s with has_channel := true, current_offset := A,
               start_timestamp := some e.now, last_position := A,
               current_track := some tid, active_segment := b } := by
  have hguard : strFalsy s.current_track = false := by
    simp [strFalsy, hcur, hne]
  simp only [seek, hguard, hcur, Option.getD_some, get_track_length, hE]
  rw [if_neg (by simp [strFalsy, hne]), if_pos hL, hprep, if_neg (by simp)]

/-- `seek` when the clamped position lands past the end of the buffer. -/
theorem seek_eq_stopped (s : PlayerState) (tid : String) (position L A : ℚ)
    (e : ActEnv)
    (hcur : s.current_track = some tid) (hne : tid ≠ "")
    (hE : lookup s.lengths tid = some L) (hL : 0 < L)
    (hprep : prepare_sound s tid (max 0 (min position L)) e.buffer_ok =
      (false, A, false)) :
    seek s position e =
      { stop s with current_track := some tid, current_offset := A,
                    last_position := A } := by
  have hguard : strFalsy s.current_track = false := by
    simp [strFalsy, hcur, hne]
  simp only [seek, hguard, hcur, Option.getD_some, get_track_length, hE]
  rw [if_neg (by simp [strFalsy, hne]), if_pos hL, hprep, if_pos rfl]

/-- C2 (amended): for a current track with known positive length L, seek
support present, and a raw buffer of at most `floor(L·sample_rate)` frames,
any `seek(t)` with `t > L` leaves the player stopped — `is_playing()` is
false and `get_current_position()` returns exactly L, for every backend
report and clock value. -/
theorem c2_seek_past_end (s : PlayerState) (tid : String) (L t : ℚ)
    (rawLen rate bpf : ℕ) (e : ActEnv)
    (hcur : s.current_track = some tid) (hne : tid ≠ "")
    (hlen : lookup s.lengths tid = some L) (hL : 0 < L)
    (hraw : lookup s.raw_audio tid = some rawLen) (hraw0 : 0 < rawLen)
    (hrate : s.sample_rate = some rate) (hr : 0 < rate)
    (hbpf : s.bytes_per_frame = some bpf) (hb : 0 < bpf)
    (hcov : rawLen ≤ Nat.floor (L * rate) * bpf)
    (ht : L < t) :
    (∀ eq : QueryEnv, is_playing (seek s t e) eq = false) ∧
    (∀ eq : QueryEnv, (get_current_position (seek s t e) eq).1 = L) := by
  have hclamp : max 0 (min t L) = L := by
    rw [min_eq_right (le_of_lt ht), max_eq_right (le_of_lt hL)]
  have hprep : prepare_sound s tid (max 0 (min t L)) e.buffer_ok =
      (false, L, false) := by
    rw [hclamp]
    exact prepare_sound_past_end s tid L L rawLen rate bpf e.buffer_ok
      hlen hL hraw hraw0 hrate hr hbpf hb hL (le_refl L) hcov
  have hseek := seek_eq_stopped s tid t L L e hcur hne hlen hL hprep
  constructor
  · intro eq
    rw [hseek]
    rfl
  · intro eq
    rw [hseek, get_pos_stopped s tid L L eq hne hlen (ne_of_gt hL), min_self]

/-- Witness for C2 (amended): seeking to 10 on the playing 4-second demo
track stops playback and positions at 4. -/
theorem c2_seek_past_end_witness :
    (∀ eq : QueryEnv, is_playing (seek demoPlaying 10 ⟨0, true⟩) eq = false) ∧
    (∀ eq : QueryEnv,
      (get_current_position (seek demoPlaying 10 ⟨0, true⟩) eq).1 = 4) :=
  c2_seek_past_end demoPlaying "a" 4 10 176400 22050 2 ⟨0, true⟩
    rfl (by decide) rfl (by norm_num) rfl (by norm_num) rfl (by norm_num)
    rfl (by norm_num) (by norm_num) (by norm_num)

/-- C2 counterexample: on the reachable state `demoNoRawPlaying` (3-second
track current and audible, but no raw buffer, so seeking is unsupported),
`seek(10)` restarts the full track from offset 0 instead of stopping:
`is_playing()` is true (the channel is busy playing the restarted sound)
and `get_current_position()` reports 0, not the length 3. -/
theorem c2_counterexample :
    Reachable demoNoRawPlaying ∧
    lookup demoNoRawPlaying.lengths "a" = some 3 ∧
    is_playing (seek demoNoRawPlaying 10 ⟨0, true⟩) ⟨true, some 0, 0⟩ = true ∧
    (get_current_position (seek demoNoRawPlaying 10 ⟨0, true⟩)
      ⟨true, some 0, 0⟩).1 = 0 := by
  have hseek : seek demoNoRawPlaying 10 ⟨0, true⟩ = demoNoRawPlaying := by
    simp [seek, prepare_sound, supports_seeking, strFalsy, get_track_length,
      demoNoRawPlaying, demoNoRawIdle, demoIdle, lookup]
  refine ⟨demoNoRawPlaying_reachable, ?_, ?_, ?_⟩
  · simp [demoNoRawPlaying, demoNoRawIdle, demoIdle, lookup]
  · rw [hseek]
    rfl
  · rw [hseek]
    simp [get_current_position, get_track_length, strFalsy, channelReports,
      channelPosMs, demoNoRawPlaying, demoNoRawIdle, demoIdle, lookup]

/-- C8: when constructing a sound from the raw byte slice fails in the
backend during a `seek`, or during a `play` with positive start offset
(with the slicing path reached: seek support present and the clamped start
inside the buffer), the player surfaces no error: it plays the full
preloaded track with session offset 0 and no partial segment. -/
theorem c8_buffer_failure_fallback (s : PlayerState) (tid : String)
    (start n : ℚ) (rawLen rate bpf : ℕ)
    (hraw : lookup s.raw_audio tid = some rawLen)
    (hrate : s.sample_rate = some rate) (hr : 0 < rate)
    (hbpf : s.bytes_per_frame = some bpf) (hb : 0 < bpf)
    (hstart : 0 < start)
    (hsL : ∀ L, lookup s.lengths tid = some L → start ≤ L)
    (hcov : Nat.floor (start * rate) * bpf < rawLen) :
    ((lookup s.sounds tid).isSome = true →
      play s tid start ⟨n, false⟩ = .ok
        { stop s with has_channel := true, current_track := some tid,
                      start_timestamp := some n }) ∧
    (s.current_track = some tid → tid ≠ "" →
      seek s start ⟨n, false⟩ =
        { s with has_channel := true, current_track := some tid,
                 current_offset := 0, last_position := 0,
                 start_timestamp := some n, active_segment := false }) := by
  have hprep : prepare_sound s tid start false = (true, 0, false) :=
    prepare_sound_buffer_fail s tid start rawLen rate bpf hraw hrate hr hbpf hb
      hstart hsL hcov
  constructor
  · intro hsnd
    have hprep' : prepare_sound (stop s) tid start false = (true, 0, false) :=
      prepare_sound_buffer_fail (stop s) tid start rawLen rate bpf hraw hrate
        hr hbpf hb hstart hsL hcov
    simp only [play, hsnd]
    rw [if_neg (by simp)]
    rw [hprep']
    rw [if_neg (by simp)]
    simp [max_self, stop]
  · intro hcur hne
    cases hE : lookup s.lengths tid with
    | some L =>
      by_cases hLp : 0 < L
      · have hclamp : max 0 (min start L) = start := by
          rw [min_eq_left (hsL L hE), max_eq_right (le_of_lt hstart)]
        have hseek := seek_eq_restart s tid start L 0 ⟨n, false⟩ false hcur hne
          hE hLp (by rw [hclamp]; exact hprep)
        rw [hseek]
      · exact absurd (lt_of_lt_of_le hstart (hsL L hE)) hLp
    | none =>
      have hguard : strFalsy s.current_track = false := by
        simp [strFalsy, hcur, hne]
      simp only [seek, hguard, hcur, Option.getD_some, get_track_length, hE]
      rw [if_neg (by simp [strFalsy, hne]), max_eq_right (le_of_lt hstart)]
      rw [hprep]
      rw [if_neg (by simp)]

/-- Witness for C8: on the demo player, a backend that cannot build a sound
from the slice makes `play("a", start=2)` and `seek(2)` both fall back to
the full track at offset 0, with no error. -/
theorem c8_buffer_failure_fallback_witness :
    play demoPlaying "a" 2 ⟨0, false⟩ = .ok
      { stop demoPlaying with has_channel := true, current_track := some "a",
                              start_timestamp := some 0 } ∧
    seek demoPlaying 2 ⟨0, false⟩ =
      { demoPlaying with has_channel := true, current_track := some "a",
                         current_offset := 0, last_position := 0,
                         start_timestamp := some 0,
                         active_segment := false } := by
  have h := c8_buffer_failure_fallback demoPlaying "a" 2 0 176400 22050 2
    rfl rfl (by norm_num) rfl (by norm_num) (by norm_num)
    (fun L hE => by
      simp [demoPlaying, demoIdle, lookup] at hE
      rw [← hE]
      norm_num)
    (by norm_num)
  exact ⟨h.1 rfl, h.2 rfl (by decide)⟩

/-- C1 (amended): for a current track with known positive length L, seek
support present, a raw buffer covering at least `floor(L·sample_rate)`
frames, and a backend that successfully constructs the sliced sound: after
`seek(t)` with `0 ≤ t ≤ L`, reading the position immediately (same clock
value, no positive channel report yet) is within one frame duration
`1/sample_rate` of `t`; the session offset is the frame-aligned
`floor(t·sample_rate)·bytes_per_frame / (bytes_per_frame·sample_rate)`. -/
theorem c1_seek_accuracy (s : PlayerState) (tid : String) (L t : ℚ)
    (rawLen rate bpf : ℕ) (e1 : ActEnv) (e2 : QueryEnv)
    (hcur : s.current_track = some tid) (hne : tid ≠ "")
    (hlen : lookup s.lengths tid = some L) (hL : 0 < L)
    (hraw : lookup s.raw_audio tid = some rawLen)
    (hrate : s.sample_rate = some rate) (hr : 0 < rate)
    (hbpf : s.bytes_per_frame = some bpf) (hb : 0 < bpf)
    (hcov : Nat.floor (L * rate) * bpf ≤ rawLen)
    (ht0 : 0 ≤ t) (htL : t ≤ L)
    (hok : e1.buffer_ok = true)
    (hq : channelPosMs e2 ≤ 0) (hnow : e2.now = e1.now) :
    |(get_current_position (seek s t e1) e2).1 - t| ≤ 1 / rate := by
  have hrq : (0:ℚ) < (rate : ℚ) := by exact_mod_cast hr
  have h1r : (0:ℚ) ≤ 1 / (rate : ℚ) := by positivity
  have hclampt : max 0 (min t L) = t := by
    rw [min_eq_left htL, max_eq_right ht0]
  rcases eq_or_lt_of_le ht0 with htz | htpos
  · -- t = 0: full track from offset 0
    have hprep : prepare_sound s tid (max 0 (min t L)) e1.buffer_ok =
        (true, 0, false) := by
      rw [hclampt]
      simp only [prepare_sound]
      rw [if_pos (Or.inl (le_of_eq htz.symm))]
    have hseek := seek_eq_restart s tid t L 0 e1 false hcur hne hlen hL hprep
    rw [hseek, get_pos_after_restart s tid L 0 e1.now e2 false hne hlen
      (ne_of_gt hL) hq hnow, min_eq_left (le_of_lt hL), ← htz]
    simp
  · by_cases hraw0 : rawLen = 0
    · -- degenerate buffer: the whole track is shorter than one frame
      have hfl0 : Nat.floor (L * rate) = 0 := by
        rw [hraw0] at hcov
        rcases Nat.mul_eq_zero.1 (Nat.le_zero.1 hcov) with h | h
        · exact h
        · exact absurd h (Nat.pos_iff_ne_zero.1 hb)
      have hL1r : L < 1 / (rate : ℚ) := by
        rw [lt_div_iff₀ hrq]
        exact Nat.floor_eq_zero.1 hfl0
      have hprep : prepare_sound s tid (max 0 (min t L)) e1.buffer_ok =
          (true, 0, false) := by
        rw [hclampt]
        have hsupp : supports_seeking s tid = true := by
          simp [supports_seeking, hraw, hrate, hbpf]
        simp only [prepare_sound, hraw, Option.getD_some]
        rw [if_neg (by push_neg; exact ⟨htpos, by simp [hsupp]⟩),
          if_pos (Or.inl hraw0)]
      have hseek := seek_eq_restart s tid t L 0 e1 false hcur hne hlen hL hprep
      rw [hseek, get_pos_after_restart s tid L 0 e1.now e2 false hne hlen
        (ne_of_gt hL) hq hnow, min_eq_left (le_of_lt hL)]
      rw [abs_of_nonpos (by linarith)]
      linarith
    · have hrawpos : 0 < rawLen := Nat.pos_of_ne_zero hraw0
      by_cases hpast : rawLen ≤ Nat.floor (t * rate) * bpf
      · -- clamped seek target is past the end of the buffer
        have hprep : prepare_sound s tid (max 0 (min t L)) e1.buffer_ok =
            (false, L, false) := by
          rw [hclampt]
          exact prepare_sound_past_end s tid L t rawLen rate bpf e1.buffer_ok
            hlen hL hraw hrawpos hrate hr hbpf hb htpos htL hpast
        have hseek := seek_eq_stopped s tid t L L e1 hcur hne hlen hL hprep
        rw [hseek, get_pos_stopped s tid L L e2 hne hlen (ne_of_gt hL),
          min_self]
        have hfeq : Nat.floor (L * rate) = Nat.floor (t * rate) := by
          apply le_antisymm
          · apply Nat.le_of_mul_le_mul_right _ hb
            exact le_trans hcov hpast
          · exact Nat.floor_le_floor
              (mul_le_mul_of_nonneg_right htL (le_of_lt hrq))
        have h1 : L - 1 / (rate : ℚ) ≤
            ((Nat.floor (L * rate) : ℕ) : ℚ) / rate := le_of_lt (floor_div_gt hr)
        have h2 : ((Nat.floor (t * rate) : ℕ) : ℚ) / rate ≤ t :=
          floor_div_le hr ht0
        rw [hfeq] at h1
        rw [abs_of_nonneg (by linarith)]
        linarith
      · -- partial segment: frame-aligned actual start
        have hpart : Nat.floor (t * rate) * bpf < rawLen := not_le.1 hpast
        have hprep' : prepare_sound s tid (max 0 (min t L)) e1.buffer_ok =
            (true, ((Nat.floor (t * rate) * bpf : ℕ) : ℚ) /
              ((bpf : ℚ) * (rate : ℚ)), true) := by
          rw [hclampt, hok]
          exact prepare_sound_partial s tid L t rawLen rate bpf hlen hL hraw
            hrate hr hbpf hb htpos htL hpart
        have hseek := seek_eq_restart s tid t L
          (((Nat.floor (t * rate) * bpf : ℕ) : ℚ) / ((bpf : ℚ) * (rate : ℚ)))
          e1 true hcur hne hlen hL hprep'
        have hVle : ((Nat.floor (t * rate) * bpf : ℕ) : ℚ) /
            ((bpf : ℚ) * (rate : ℚ)) ≤ t := by
          rw [frames_div_eq _ _ _ hr hb]
          exact floor_div_le hr ht0
        have hVgt : t - 1 / (rate : ℚ) <
            ((Nat.floor (t * rate) * bpf : ℕ) : ℚ) /
              ((bpf : ℚ) * (rate : ℚ)) := by
          rw [frames_div_eq _ _ _ hr hb]
          exact floor_div_gt hr
        rw [hseek, get_pos_after_restart s tid L
          (((Nat.floor (t * rate) * bpf : ℕ) : ℚ) / ((bpf : ℚ) * (rate : ℚ)))
          e1.now e2 true hne hlen (ne_of_gt hL) hq hnow,
          min_eq_left (le_trans hVle htL)]
        rw [abs_of_nonpos (by linarith)]
        linarith

/-- Witness for C1 (amended): seeking to 2 on the playing 4-second demo
track and querying immediately reports a position within one frame
(`1/22050` s) of 2. -/
theorem c1_seek_accuracy_witness :
    |(get_current_position (seek demoPlaying 2 ⟨0, true⟩)
      ⟨true, some 0, 0⟩).1 - 2| ≤ 1 / ((22050 : ℕ) : ℚ) :=
  c1_seek_accuracy demoPlaying "a" 4 2 176400 22050 2 ⟨0, true⟩
    ⟨true, some 0, 0⟩ rfl (by decide) rfl (by norm_num) rfl rfl (by norm_num)
    rfl (by norm_num) (by norm_num) (by norm_num) (by norm_num) rfl
    (by decide) rfl

/-- C1 counterexample: the claim as stated fails when the backend cannot
construct the sliced sound.  On the reachable playing state `demoPlaying`
(track "a", length 4, seeking supported), `seek(2)` with a failing buffer
construction falls back to the full track at offset 0, so the position read
immediately afterwards is 0 — not within one frame duration (`1/22050`) of
the requested 2. -/
theorem c1_counterexample :
    Reachable demoPlaying ∧
    demoPlaying.current_track = some "a" ∧
    supports_seeking demoPlaying "a" = true ∧
    lookup demoPlaying.lengths "a" = some 4 ∧
    ¬ (|(get_current_position (seek demoPlaying 2 ⟨0, false⟩)
        ⟨true, some 0, 0⟩).1 - 2| ≤ 1 / ((22050 : ℕ) : ℚ)) := by
  have hfl : Nat.floor ((2:ℚ) * 22050) = 44100 := by norm_num
  have hseek : seek demoPlaying 2 ⟨0, false⟩ =
      { demoPlaying with current_offset := 0, last_position := 0,
                         start_timestamp := some 0 } := by
    simp [seek, prepare_sound, supports_seeking, get_track_length, demoPlaying,
      demoIdle, lookup, strFalsy, hfl]
    norm_num
  have hval : (get_current_position
      ({ demoPlaying with current_offset := 0, last_position := 0,
                          start_timestamp := some 0 }) ⟨true, some 0, 0⟩).1 = 0 := by
    simp [get_current_position, get_track_length, strFalsy, channelReports,
      channelPosMs, demoPlaying, demoIdle, lookup]
  refine ⟨demoPlaying_reachable, rfl, rfl, rfl, ?_⟩
  rw [hseek, hval]
  rw [abs_of_nonpos (by norm_num)]
  norm_num

end TTSPlayer
